import Mathlib

/-!
Shallow embedding of the permission-chain kernel, predicate kernel, WASM
codegen instruction selection, and CLI driver of the Dada compiler
(`components/dada-ir-sym`, `dada-codegen`, `dada-lang`), together with
proofs settling the specification claims about them.

Rust `Result<T, Reported>` (the `Errors<T>` alias) is embedded as
`Except Reported T`; panics are embedded as `Option`/`Except` failures where
noted.  The checker's async machinery is irrelevant to the claims proved
here: all embedded functions are the synchronous decision procedures the
source executes on inference-free inputs (chains without `Lien::Infer`
links), and the speculative (non-`required`) branch of `if_required` is the
one modelled, i.e. the boolean tests `term_is_provably_*` rather than the
constraint-imposing `require_*` variants.
-/

/-- An error that has already been reported as a diagnostic
(`dada_ir_ast::diagnostic::Reported`).  Modelled as an opaque token. -/
def Reported : Type := Nat

deriving instance DecidableEq, Repr for Reported

/-- An or-else continuation (`&dyn OrElse` / `ArcOrElse`): carries the
diagnostic to produce if a proof fails.  Modelled as an opaque token
(`OrElse` itself is taken by a core Lean class, so the `Arc` name of the
stored form is used); `report`ing it yields a `Reported` carrying the same
token. -/
def ArcOrElse : Type := Nat

deriving instance DecidableEq, Repr for ArcOrElse

/-- `or_else.report(env, because)` surfaces the diagnostic; the embedding
keeps just the token. -/
def ArcOrElse.report (o : ArcOrElse) : Reported := o

/-- The four predicates of the lattice
(`check::predicates::Predicate`).  Older files of the repository
(`subtype/chains.rs`, `to_red.rs`) call `shared` \"Copy\" and `unique`
\"Move\"; `red.rs` uses the names below. -/
inductive Predicate : Type where
  | shared
  | unique
  | owned
  | lent
deriving DecidableEq, Repr

/-- A generic variable symbol (`SymVariable`). -/
def SymVariable : Type := Nat

deriving instance DecidableEq, Repr for SymVariable

/-- A place (`SymPlace`): a path rooted in a local variable, extended by
field names (e.g. `x.f.g`). -/
structure SymPlace : Type where
  root : Nat
  fields : List Nat
deriving DecidableEq, Repr

/-- `z.f`: extend a place with one more field. -/
def SymPlace.field (p : SymPlace) (f : Nat) : SymPlace :=
  { root := p.root, fields := p.fields ++ [f] }

/-- Modelled from the spec: `SymPlace::is_covered_by` is called by
`sub_chains1` (`subtype/chains.rs` lines 201 and 229) but its definition is
not among the source files.  Per the glossary, a place `p` covers `q` if
`q` is a prefix of `p` at the same root; `a.is_covered_by(b)` therefore
holds iff `b` covers `a`, i.e. iff `a` is a prefix of `b` at the same
root. -/
def SymPlace.is_covered_by (a b : SymPlace) : Bool :=
  a.root == b.root && a.fields.isPrefixOf b.fields

/-- The fragment of the checker environment the embedded decision
procedures consult: which predicates each universal variable was declared
to satisfy in its where-clauses (`env.var_is_declared_to_be`). -/
structure Env : Type where
  declared : SymVariable → Predicate → Bool

/-- `env.var_is_declared_to_be(v, predicate)`. -/
def Env.var_is_declared_to_be (env : Env) (v : SymVariable) (p : Predicate) : Bool :=
  env.declared v p

/-- One link of a red(uced) permission chain (`check::red::RedLink`).
The older snapshot `subtype/chains.rs` names this type `Lien` and calls
`ref` \"Shared\" and `mut` \"Leased\"; those files also carry no liveness
flag, so the `live` argument is simply ignored by every function embedded
from them.  Chains containing `Lien::Infer` links are outside this
embedding (see the module comment). -/
inductive RedLink : Type where
  | our
  | ref (live : Bool) (place : SymPlace)
  | mut (live : Bool) (place : SymPlace)
  | var (v : SymVariable)
  | err (r : Reported)
deriving DecidableEq, Repr

namespace RedLink

/-- `RedLink::is_owned`. -/
def is_owned (l : RedLink) (env : Env) : Except Reported Bool :=
  match l with
  | .our => .ok true
  | .var v => .ok (env.var_is_declared_to_be v .owned)
  | .ref _ _ | .mut _ _ => .ok false
  | .err reported => .error reported

/-- `RedLink::is_lent`. -/
def is_lent (l : RedLink) (env : Env) : Except Reported Bool :=
  match l with
  | .ref _ _ | .mut _ _ => .ok true
  | .var v => .ok (env.var_is_declared_to_be v .lent)
  | .our => .ok false
  | .err reported => .error reported

/-- `RedLink::is_move`. -/
def is_move (l : RedLink) (env : Env) : Except Reported Bool :=
  match l with
  | .mut _ _ => .ok true
  | .var v => .ok (env.var_is_declared_to_be v .unique)
  | .our | .ref _ _ => .ok false
  | .err reported => .error reported

/-- `RedLink::is_copy`. -/
def is_copy (l : RedLink) (env : Env) : Except Reported Bool :=
  match l with
  | .our | .ref _ _ => .ok true
  | .var v => .ok (env.var_is_declared_to_be v .shared)
  | .mut _ _ => .ok false
  | .err reported => .error reported

/-- `RedLink::are_copy`: a chain is provably copy (shared) iff its first
link is; the empty chain is not. -/
def are_copy (env : Env) (links : List RedLink) : Except Reported Bool :=
  match links with
  | [] => .ok false
  | first :: _ => first.is_copy env

/-- `RedLink::are_move`: every link must be move-capable. -/
def are_move (env : Env) : List RedLink → Except Reported Bool
  | [] => .ok true
  | l :: ls => do
    let b ← l.is_move env
    if !b then .ok false else are_move env ls

/-- `RedLink::are_owned`: every link must be owned-capable. -/
def are_owned (env : Env) : List RedLink → Except Reported Bool
  | [] => .ok true
  | l :: ls => do
    let b ← l.is_owned env
    if !b then .ok false else are_owned env ls

/-- `RedLink::are_lent`, exactly as written in `red.rs` lines 144-151: the
loop returns `Ok(true)` as soon as it sees a link that is *not* lent and
`Ok(false)` if every link is lent. -/
def are_lent (env : Env) : List RedLink → Except Reported Bool
  | [] => .ok false
  | l :: ls => do
    let b ← l.is_lent env
    if !b then .ok true else are_lent env ls

end RedLink

/-- `RedChain::is_provably` (`red.rs` lines 81-89): dispatch the predicate
to the corresponding `RedLink::are_*` test over the chain's links. -/
def RedChain.is_provably (env : Env) (links : List RedLink) (predicate : Predicate) :
    Except Reported Bool :=
  match predicate with
  | .shared => RedLink.are_copy env links
  | .unique => RedLink.are_move env links
  | .owned => RedLink.are_owned env links
  | .lent => RedLink.are_lent env links

/-- Modelled from the spec: `term_is_provably_my` (predicate module, not
among the source files) is called by `sub_chains` when a non-empty lower
chain is compared against the empty chain (`my`).  Per the spec,
`my = Unique ∧ Owned`, and provability of each over a chain is the
corresponding `RedLink::are_*` test. -/
def term_is_provably_my (env : Env) (links : List RedLink) : Except Reported Bool := do
  let m ← RedLink.are_move env links
  let o ← RedLink.are_owned env links
  .ok (m && o)

/-- Modelled from the spec: `term_is_provably_copy` (predicate module, not
among the source files) is called by `sub_chains1` when the lower chain is
`[Our]`.  Per the spec, `Our ≤ head1 tail1` iff `head1 tail1` is provably
shared (copy), and provability of Shared over a chain is decided by its
first link (false for the empty chain) — the `RedLink::are_copy` rule. -/
def term_is_provably_copy (env : Env) (links : List RedLink) : Except Reported Bool :=
  match links with
  | [] => .ok false
  | first :: _ => first.is_copy env

mutual

/-- `sub_chains` (`subtype/chains.rs` lines 89-121), restricted to
inference-free chains: the empty lower chain (`my`) is below everything; a
non-empty lower chain is below the empty chain iff it is provably `my`;
otherwise defer to `sub_chains1` on the heads and tails. -/
def sub_chains (env : Env) (lower_chain upper_chain : List RedLink) :
    Except Reported Bool :=
  match lower_chain, upper_chain with
  | [], _ => .ok true
  | lien0 :: c0, [] => term_is_provably_my env (lien0 :: c0)
  | lien0 :: c0, lien1 :: c1 => sub_chains1 env lien0 c0 lien1 c1
termination_by lower_chain.length + upper_chain.length + 1
decreasing_by all_goals simp_arith

/-- `sub_chains1` (`subtype/chains.rs` lines 123-255), restricted to
inference-free chains; the match arms appear in source order (the two
`Lien::Infer` arms cannot fire on this link type and are omitted).  In the
source's naming, `ref` is `Lien::Shared` and `mut` is `Lien::Leased`. -/
def sub_chains1 (env : Env) (lower_chain_head : RedLink) (lower_chain_tail : List RedLink)
    (upper_chain_head : RedLink) (upper_chain_tail : List RedLink) :
    Except Reported Bool :=
  match lower_chain_head, lower_chain_tail, upper_chain_head, upper_chain_tail with
  | .err reported, _, _, _ => .error reported
  | _, _, .err reported, _ => .error reported

  | .our, [], head1, tail1 =>
    -- `our <= C1 if C1 is copy`
    term_is_provably_copy env (head1 :: tail1)
  | .our, c0, .our, c1 =>
    -- `(our C0) <= (our C1) if C0 <= C1`
    sub_chains env c0 c1
  | .our, _, .mut _ _, _ => .ok false
  | .our, _, .ref _ _, _ => .ok false
  | .our, _, .var _, _ => .ok false

  | .mut _ _, _, .our, _ => .ok false
  | .mut _ place0, c0, .mut _ place1, c1 =>
    -- `(leased[place0] C0) <= (leased[place1] C1) if place1 <= place0 && C0 <= C1`
    if place0.is_covered_by place1 then
      sub_chains env c0 c1
    else
      .ok false
  | .mut _ _, _, .ref _ _, _ => .ok false
  | .mut _ _, _, .var _, _ => .ok false

  | .ref live place0, c0, .our, lien1 :: c1 =>
    -- `(shared[place0] C0) <= (our C1) if (leased[place0] C0) <= C1`
    sub_chains1 env (.mut live place0) c0 lien1 c1
  | .ref _ _, _, .our, [] =>
    -- if C1 is [] then `leased[place0] C0 <= []` will also be false
    .ok false
  | .ref _ place0, c0, .ref _ place1, c1 =>
    -- `(shared[place0] C0) <= (shared[place1] C1) if place1 <= place0 && C0 <= C1`
    if place0.is_covered_by place1 then
      sub_chains env c0 c1
    else
      .ok false
  | .ref _ _, _, .mut _ _, _ => .ok false
  | .ref _ _, _, .var _, _ => .ok false

  | .var v0, [], .our, [] =>
    -- `X <= our if X is copy+owned`
    .ok (env.var_is_declared_to_be v0 .shared && env.var_is_declared_to_be v0 .owned)
  | .var _, _, .our, _ => .ok false
  | .var v0, c0, .var v1, c1 =>
    -- `X C0 <= X C1 if C0 <= C1`
    if v0 = v1 then
      sub_chains env c0 c1
    else
      .ok false
  | .var _, _, .mut _ _, _ => .ok false
  | .var _, _, .ref _ _, _ => .ok false
termination_by lower_chain_tail.length + upper_chain_tail.length + 2
decreasing_by all_goals simp_arith

end

/-- `ChainExt::is_copy` (`to_red.rs` lines 46-53), restricted to
inference-free chains: scan the liens in order and return true as soon as
one is copy (`LienExt::is_copy`, which on this fragment coincides with
`RedLink::is_copy`: `Our`/`Shared` are copy, `Leased` is not, `Var` asks
`test_var_is_provably(env, v, Copy)` = the declaration, `Error`
propagates). -/
def ChainExt.is_copy (env : Env) : List RedLink → Except Reported Bool
  | [] => .ok false
  | lien :: liens => do
    let b ← lien.is_copy env
    if b then .ok true else ChainExt.is_copy env liens

/-- `ChainExt::concat` (`to_red.rs` lines 35-43): concatenate two lien
chains; if `other` is copy, just return `other`. -/
def ChainExt.concat (env : Env) (self other : List RedLink) :
    Except Reported (List RedLink) := do
  let c ← ChainExt.is_copy env other
  if c then
    .ok other
  else
    .ok (self ++ other)

/-- Modelled from the spec: the per-inference-variable predicate state
consulted by `require_infer_is`/`require_infer_isnt`
(`InferenceVarData` itself is not among the source files).  Per the spec it
carries `known_provably_is[Pred]` and `known_not_provably_is[Pred]`; each
recorded entry keeps the or-else that justified it
(`is_known_to_provably_be` returns that or-else). -/
structure InferenceVarData : Type where
  known_provably_is : Predicate → Option ArcOrElse
  known_not_provably_is : Predicate → Option ArcOrElse

/-- `data.is_known_to_provably_be(predicate)`. -/
def InferenceVarData.is_known_to_provably_be
    (d : InferenceVarData) (predicate : Predicate) : Option ArcOrElse :=
  d.known_provably_is predicate

/-- `data.is_known_not_to_provably_be(predicate)`. -/
def InferenceVarData.is_known_not_to_provably_be
    (d : InferenceVarData) (predicate : Predicate) : Option ArcOrElse :=
  d.known_not_provably_is predicate

/-- Modelled from the spec: `env.require_inference_var_is` records the
obligation that the variable provably is `predicate` (append-only
monotonic store), returning the stored or-else.  The embedding returns the
updated state. -/
def InferenceVarData.record_is
    (d : InferenceVarData) (predicate : Predicate) (or_else : ArcOrElse) :
    InferenceVarData :=
  { d with known_provably_is := fun p =>
      if p = predicate then some or_else else d.known_provably_is p }

/-- Modelled from the spec: `env.require_inference_var_isnt`, the negative
twin of `record_is`. -/
def InferenceVarData.record_isnt
    (d : InferenceVarData) (predicate : Predicate) (or_else : ArcOrElse) :
    InferenceVarData :=
  { d with known_not_provably_is := fun p =>
      if p = predicate then some or_else else d.known_not_provably_is p }

/-- `require_infer_is` (`predicates/var_infer.rs` lines 53-105), as a state
transformer on the variable's data: `Ok` with no change if the predicate is
already required, an error reported through `or_else` if the predicate was
already required *not* to hold, and otherwise record the requirement and
succeed.  (The deferred `require_for_all_chain_bounds` task it spawns
monitors future bounds and does not touch this state; the two
`if let Predicate::...` blocks at lines 89-101 have empty bodies.) -/
def require_infer_is (d : InferenceVarData) (predicate : Predicate)
    (or_else : ArcOrElse) : Except Reported Unit × InferenceVarData :=
  let is_already := d.is_known_to_provably_be predicate
  let isnt_already := d.is_known_not_to_provably_be predicate
  if is_already.isSome then
    (.ok (), d)
  else
    match isnt_already with
    | some _prev_or_else => (.error or_else.report, d)
    | none => (.ok (), d.record_is predicate or_else)

/-- `require_infer_isnt` (`predicates/var_infer.rs` lines 109-139):
symmetric to `require_infer_is`. -/
def require_infer_isnt (d : InferenceVarData) (predicate : Predicate)
    (or_else : ArcOrElse) : Except Reported Unit × InferenceVarData :=
  let is_already := d.is_known_to_provably_be predicate
  let isnt_already := d.is_known_not_to_provably_be predicate
  if isnt_already.isSome then
    (.ok (), d)
  else
    match is_already with
    | some _prev_or_else => (.error or_else.report, d)
    | none => (.ok (), d.record_isnt predicate or_else)

/-- `SymPrimitiveKind`: the primitive type kinds of Dada (bool, char,
signed/unsigned integers of N bits, pointer-sized integers, floats). -/
inductive SymPrimitiveKind : Type where
  | bool
  | char
  | int (bits : Nat)
  | uint (bits : Nat)
  | isize
  | usize
  | float (bits : Nat)
deriving DecidableEq, Repr

/-- `ObjectBinaryOp`: the binary operators of the object IR, as consumed by
`execute_binary_op_on_primitives`. -/
inductive ObjectBinaryOp : Type where
  | add
  | sub
  | mul
  | div
  | greaterThan
  | lessThan
  | greaterEqual
  | lessEqual
  | equalEqual
deriving DecidableEq, Repr

/-- The fragment of `wasm_encoder::Instruction` emitted by the embedded
codegen paths.  Constant payloads are kept as the raw literal payload
(a natural number); the numeric reinterpretation casts the source performs
(`as i32`, `as i64`, `as f32`) are not modelled, since no claim depends on
the numeric value of a constant. -/
inductive Instruction : Type where
  | i32Const (value : Nat)
  | i64Const (value : Nat)
  | f32Const (value : Nat)
  | f64Const (value : Nat)
  | i32Add | i32Sub | i32Mul | i32DivS | i32DivU
  | i32GtS | i32LtS | i32GeS | i32LeS
  | i32GtU | i32LtU | i32GeU | i32LeU | i32Eq
  | i64Add | i64Sub | i64Mul | i64DivS | i64DivU
  | i64GtS | i64LtS | i64GeS | i64LeS
  | i64GtU | i64LtU | i64GeU | i64LeU | i64Eq
  | f32Add | f32Sub | f32Mul | f32Div
  | f32Gt | f32Lt | f32Ge | f32Le | f32Eq
  | f64Add | f64Sub | f64Mul | f64Div
  | f64Gt | f64Lt | f64Ge | f64Le | f64Eq
  | i32Xor
  | drop
  | unreachable
deriving Repr

/-- `execute_binary_op_on_primitives` (`generate_expr.rs` lines 237-464),
as the single instruction it pushes; `none` is the `panic!` arms (invalid
arithmetic on `bool`/`char`, or a bit-width above 64).  The source's guard
cascade `if bits <= 32 => ... if bits <= 64 => ... panic` for each
`(kind, op)` pair is rendered as the corresponding nested conditional. -/
def execute_binary_op_on_primitives (binary_op : ObjectBinaryOp)
    (prim_kind : SymPrimitiveKind) : Option Instruction :=
  match prim_kind, binary_op with
  | .char, .add | .char, .sub | .char, .mul | .char, .div
  | .bool, .add | .bool, .sub | .bool, .mul | .bool, .div => none

  | .char, .greaterThan | .bool, .greaterThan => some .i32GtU
  | .char, .lessThan | .bool, .lessThan => some .i32LtU
  | .char, .greaterEqual | .bool, .greaterEqual => some .i32GeU
  | .char, .lessEqual | .bool, .lessEqual => some .i32GeU
  | .char, .equalEqual | .bool, .equalEqual => some .i32Eq

  | .int bits, .add =>
    if bits ≤ 32 then some .i32Add else if bits ≤ 64 then some .i64Add else none
  | .int bits, .sub =>
    if bits ≤ 32 then some .i32Sub else if bits ≤ 64 then some .i64Sub else none
  | .int bits, .mul =>
    if bits ≤ 32 then some .i32Mul else if bits ≤ 64 then some .i64Mul else none
  | .int bits, .div =>
    if bits ≤ 32 then some .i32DivS else if bits ≤ 64 then some .i64DivS else none
  | .int bits, .greaterThan =>
    if bits ≤ 32 then some .i32GtS else if bits ≤ 64 then some .i64GtS else none
  | .int bits, .lessThan =>
    if bits ≤ 32 then some .i32LtS else if bits ≤ 64 then some .i64LtS else none
  | .int bits, .greaterEqual =>
    if bits ≤ 32 then some .i32GeS else if bits ≤ 64 then some .i64GeS else none
  | .int bits, .lessEqual =>
    if bits ≤ 32 then some .i32LeS else if bits ≤ 64 then some .i64LeS else none
  | .int bits, .equalEqual =>
    if bits ≤ 32 then some .i32Eq else if bits ≤ 64 then some .i64Eq else none

  | .isize, .add => some .i32Add
  | .isize, .sub => some .i32Sub
  | .isize, .mul => some .i32Mul
  | .isize, .div => some .i32DivS
  | .isize, .greaterThan => some .i32GtS
  | .isize, .lessThan => some .i32LtS
  | .isize, .greaterEqual => some .i32GeS
  | .isize, .lessEqual => some .i32LeS
  | .isize, .equalEqual => some .i32Eq

  | .uint bits, .add =>
    if bits ≤ 32 then some .i32Add else if bits ≤ 64 then some .i64Add else none
  | .uint bits, .sub =>
    if bits ≤ 32 then some .i32Sub else if bits ≤ 64 then some .i64Sub else none
  | .uint bits, .mul =>
    if bits ≤ 32 then some .i32Mul else if bits ≤ 64 then some .i64Mul else none
  | .uint bits, .div =>
    if bits ≤ 32 then some .i32DivU else if bits ≤ 64 then some .i64DivU else none
  | .uint bits, .greaterThan =>
    if bits ≤ 32 then some .i32GtU else if bits ≤ 64 then some .i64GtU else none
  | .uint bits, .lessThan =>
    if bits ≤ 32 then some .i32LtU else if bits ≤ 64 then some .i64LtU else none
  | .uint bits, .greaterEqual =>
    if bits ≤ 32 then some .i32GeU else if bits ≤ 64 then some .i64GeU else none
  | .uint bits, .lessEqual =>
    if bits ≤ 32 then some .i32LeU else if bits ≤ 64 then some .i64LeU else none
  | .uint bits, .equalEqual =>
    if bits ≤ 32 then some .i32Eq else if bits ≤ 64 then some .i64Eq else none

  | .usize, .add => some .i32Add
  | .usize, .sub => some .i32Sub
  | .usize, .mul => some .i32Mul
  | .usize, .div => some .i32DivU
  | .usize, .greaterThan => some .i32GtU
  | .usize, .lessThan => some .i32LtU
  | .usize, .greaterEqual => some .i32GeU
  | .usize, .lessEqual => some .i32LeU
  | .usize, .equalEqual => some .i32Eq

  | .float bits, .add =>
    if bits ≤ 32 then some .f32Add else if bits ≤ 64 then some .f64Add else none
  | .float bits, .sub =>
    if bits ≤ 32 then some .f32Sub else if bits ≤ 64 then some .f64Sub else none
  | .float bits, .mul =>
    if bits ≤ 32 then some .f32Mul else if bits ≤ 64 then some .f64Mul else none
  | .float bits, .div =>
    if bits ≤ 32 then some .f32Div else if bits ≤ 64 then some .f64Div else none
  | .float bits, .greaterThan =>
    if bits ≤ 32 then some .f32Gt else if bits ≤ 64 then some .f64Gt else none
  | .float bits, .lessThan =>
    if bits ≤ 32 then some .f32Lt else if bits ≤ 64 then some .f64Lt else none
  | .float bits, .greaterEqual =>
    if bits ≤ 32 then some .f32Ge else if bits ≤ 64 then some .f64Ge else none
  | .float bits, .lessEqual =>
    if bits ≤ 32 then some .f32Le else if bits ≤ 64 then some .f64Le else none
  | .float bits, .equalEqual =>
    if bits ≤ 32 then some .f32Eq else if bits ≤ 64 then some .f64Eq else none

/-- `PrimitiveLiteral`: an integral or floating literal, carried as its raw
payload. -/
inductive PrimitiveLiteral : Type where
  | integral (bits : Nat)
  | float (bits : Nat)
deriving DecidableEq, Repr

/-- The inner `match kind` of `push_literal` (`generate_expr.rs` lines
557-596), which selects the constant instruction to push once the
expression's type has been resolved to a primitive kind.  `none` is the
`panic!` arms.  The two `Float { bits } if bits <= 32` arms of the source
(lines 579 and 585) are rendered as the two identically-guarded nested
conditionals; the second is consequently unreachable, exactly as in the
source, and a 64-bit float falls through to the final panic arm. -/
def push_literal_kind (kind : SymPrimitiveKind) (literal : PrimitiveLiteral) :
    Option Instruction :=
  match kind with
  | .bool | .isize | .usize | .char =>
    match literal with
    | .integral bits => some (.i32Const bits)
    | _ => none
  | .int bits | .uint bits =>
    if bits ≤ 32 then
      match literal with
      | .integral bits => some (.i32Const bits)
      | _ => none
    else if bits ≤ 64 then
      match literal with
      | .integral bits => some (.i64Const bits)
      | _ => none
    else none
  | .float bits =>
    if bits ≤ 32 then
      match literal with
      | .float bits => some (.f32Const bits)
      | _ => none
    else if bits ≤ 32 then
      match literal with
      | .float bits => some (.f64Const bits)
      | _ => none
    else none

/-- `wasm_encoder::ValType`: the WASM value types used by the codegen. -/
inductive ValType : Type where
  | i32
  | i64
  | f32
  | f64
deriving DecidableEq, Repr

/-- `WasmRepr` (`wasm_repr.rs` lines 32-48): the WASM representation of a
Dada value (`class` and `struct` are Lean keywords, hence the `Repr`
suffixes on those constructors). -/
inductive WasmRepr : Type where
  | val (vt : ValType)
  | structRepr (fields : List WasmRepr)
  | classRepr (fields : List WasmRepr)
  | nothing

mutual

/-- Modelled from the spec: `WasmRepr::flatten` is used by the codegen
(e.g. `block_type`) but its definition is not among the source files.
Per the glossary, it is the sequence of WASM value types obtained by a
post-order traversal, skipping the internal structure of `Class` (which
becomes one `i32` pointer); `Nothing` contributes no values. -/
def WasmRepr.flatten : WasmRepr → List ValType
  | .val vt => [vt]
  | .structRepr fields => WasmRepr.flatten_list fields
  | .classRepr _ => [.i32]
  | .nothing => []

/-- Flatten each representation in a list and concatenate
(helper for [`WasmRepr.flatten`]). -/
def WasmRepr.flatten_list : List WasmRepr → List ValType
  | [] => []
  | r :: rs => WasmRepr.flatten r ++ WasmRepr.flatten_list rs

end

/-- `wasm_valtype_for_primitive_kind` (`wasm_repr.rs` lines 150-166);
`none` is the `panic!` arms for out-of-range bit counts.  Pointer-sized
integers use `pointer_val_type()`, hardcoded to `I32`. -/
def wasm_valtype_for_primitive_kind (primitive : SymPrimitiveKind) : Option ValType :=
  match primitive with
  | .bool => some .i32
  | .char => some .i32
  | .int bits | .uint bits =>
    if bits ≤ 32 then some .i32 else if bits ≤ 64 then some .i64 else none
  | .usize | .isize => some .i32
  | .float bits =>
    if bits = 32 then some .f32 else if bits = 64 then some .f64 else none

/-- The object-IR types appearing in the expression fragment embedded
below: named primitive types (`ObjectTyKind::Named` of a
`SymTyName::Primitive`). -/
inductive ObjectTy : Type where
  | primitive (kind : SymPrimitiveKind)
deriving DecidableEq, Repr

/-- The primitive kind of a fragment type (what
`ExprCodegen::primitive_kind` and `push_literal` resolve a
`Named(Primitive)` type to). -/
def ObjectTy.kind : ObjectTy → SymPrimitiveKind
  | .primitive k => k

/-- `wasm_repr_of_type` restricted to the fragment's types: a primitive
type is `Val` of its value type (`wasm_repr.rs` lines 118-120); `none` is
the panic for out-of-range bit counts. -/
def wasm_repr_of_type (ty : ObjectTy) : Option WasmRepr :=
  (wasm_valtype_for_primitive_kind ty.kind).map .val

/-- The expression fragment of the object IR needed by the claims about
`push_expr`: sequencing, primitive literals, and error sentinels.  Each
node carries its `ObjectTy`, as in the source IR. -/
inductive ObjectExpr : Type where
  | semi (ty : ObjectTy) (a b : ObjectExpr)
  | primitive (ty : ObjectTy) (literal : PrimitiveLiteral)
  | error (ty : ObjectTy) (reported : Reported)
deriving DecidableEq, Repr

/-- `expr.ty(db)`. -/
def ObjectExpr.ty : ObjectExpr → ObjectTy
  | .semi ty _ _ => ty
  | .primitive ty _ => ty
  | .error ty _ => ty

/-- `pop_and_drop` (`generate_expr.rs` lines 206-208): it emits no
instructions — \"currently everything is stack allocated, no dropping
required\". -/
def pop_and_drop (_of_type : ObjectTy) : List Instruction := []

/-- `push_expr` (`generate_expr.rs` lines 74-204) restricted to the
embedded fragment, as the list of instructions it appends: for
`Semi(a, b)` the instructions of `a`, then `pop_and_drop(a.ty)`, then the
instructions of `b`; for a primitive literal the selected constant; for an
`Error` node `Unreachable` (`push_error`).  `none` is a `panic!` arising
from `push_literal`. -/
def push_expr : ObjectExpr → Option (List Instruction)
  | .semi _ a b => do
    let ia ← push_expr a
    let ib ← push_expr b
    pure (ia ++ pop_and_drop a.ty ++ ib)
  | .primitive ty literal => do
    let i ← push_literal_kind ty.kind literal
    pure [i]
  | .error _ _ => pure [.unreachable]

/-- The claim's reading of the `Semi` lowering, for comparison with
[`push_expr`]: emit `a`, then one `Drop` per flattened value of `a`'s
type, then emit `b`. -/
def push_semi_claimed (a b : ObjectExpr) : Option (List Instruction) := do
  let ia ← push_expr a
  let ib ← push_expr b
  let repr ← wasm_repr_of_type a.ty
  pure (ia ++ List.replicate repr.flatten.length .drop ++ ib)

/-- A source file handle (`SourceFile`), as registered by
`load_source_file`. -/
def SourceFile : Type := Nat

deriving instance DecidableEq, Repr for SourceFile

/-- A structured diagnostic record, opaque to the driver logic. -/
def Diagnostic : Type := Nat

deriving instance DecidableEq, Repr for Diagnostic

/-- `run_command` (`main_lib/run.rs` lines 11-28), parametrized by the
compiler it drives: load the source file (propagating a loading failure),
run codegen and `check_all`, render every diagnostic to stderr, and return
`Ok(())`.  The returned value is the command's `Fallible<()>`. -/
def run_command (load_source_file : Except Reported SourceFile)
    (codegen_main_fn : SourceFile → List Nat)
    (check_all : SourceFile → List Diagnostic) : Except Reported Unit := do
  let source_file ← load_source_file
  let _bytes := codegen_main_fn source_file
  let _diagnostics := check_all source_file
  -- each diagnostic is rendered to stderr; rendering does not affect the result
  .ok ()

/-- Modelled from the spec: the process exit status of the driver — `0`
when the command returns `Ok`, nonzero when it returns `Err` (the `main`
wrapper mapping `Fallible` to an exit code is not among the source
files). -/
def exit_status (result : Except Reported Unit) : Nat :=
  match result with
  | .ok _ => 0
  | .error _ => 1

/-- Numerals denote concrete tokens of the opaque `Nat`-backed types. -/
instance (n : Nat) : OfNat SymVariable n := ⟨n⟩

instance (n : Nat) : OfNat Reported n := ⟨n⟩

instance (n : Nat) : OfNat ArcOrElse n := ⟨n⟩

instance (n : Nat) : OfNat SourceFile n := ⟨n⟩

instance (n : Nat) : OfNat Diagnostic n := ⟨n⟩

/-- An environment declaring every predicate for every variable (used to
instantiate universally-quantified theorems at concrete inputs). -/
def envAll : Env := ⟨fun _ _ => true⟩

/-- Appending a field to a path never yields a prefix of the original
path. -/
theorem append_singleton_not_isPrefixOf (l : List Nat) (f : Nat) :
    (l ++ [f]).isPrefixOf l = false := by
  induction l with
  | nil => rfl
  | cons a as ih => simp [List.isPrefixOf, ih]

/-- A subplace `z.f` is not covered by its parent `z`: `z.f` is not a
prefix of `z`. -/
theorem field_not_covered_by_parent (z : SymPlace) (f : Nat) :
    (z.field f).is_covered_by z = false := by
  simp [SymPlace.is_covered_by, SymPlace.field, append_singleton_not_isPrefixOf]

/-- C1: for every place `z` and field `f` (and any liveness flags and
variable declarations), the red chain `[Mut(z.f)]` is not accepted as a
subtype of the red chain `[Mut(z)]`: the Mut-vs-Mut rule of `sub_chains1`
tests `place0.is_covered_by(place1)` with `place0 = z.f` and
`place1 = z`, and `z.f` is not a prefix of `z`, so the result is
`Ok(false)` and a call passing `mut[z.f] T` where `mut[z] T` is expected
rejects. -/
theorem mut_subplace_not_sub_mut_parent (env : Env) (z : SymPlace) (f : Nat)
    (l0 l1 : Bool) :
    sub_chains env [.mut l0 (z.field f)] [.mut l1 z] = .ok false := by
  simp [sub_chains, sub_chains1, field_not_covered_by_parent]

/-- C2: the decision `sub_chains` takes for the lower chain `[Our]` against
any upper chain coincides exactly with the provably-shared (copy) test
`RedLink::are_copy` on the upper chain: `our ≤ C` iff `C` is provably
shared. -/
theorem our_sub_chain_iff_provably_copy (env : Env) (upper : List RedLink) :
    sub_chains env [.our] upper = RedLink.are_copy env upper := by
  match upper with
  | [] =>
    simp [sub_chains, term_is_provably_my, RedLink.are_copy, RedLink.are_move,
      RedLink.are_owned, RedLink.is_move, RedLink.is_owned, Bind.bind, Except.bind]
  | head1 :: tail1 =>
    cases head1 <;>
      simp [sub_chains, sub_chains1, term_is_provably_copy, RedLink.are_copy,
        RedLink.is_copy]

/-- `term_is_provably_my` succeeds with `true` exactly when both the
provably-move and provably-owned tests do. -/
theorem term_is_provably_my_eq_ok_true (env : Env) (links : List RedLink) :
    term_is_provably_my env links = .ok true ↔
      RedLink.are_move env links = .ok true ∧ RedLink.are_owned env links = .ok true := by
  cases hm : RedLink.are_move env links <;>
    cases ho : RedLink.are_owned env links <;>
      simp [term_is_provably_my, hm, ho, Bind.bind, Except.bind]

/-- C3: the empty chain (`my`) is the bottom element of chain subtyping:
`sub_chains` accepts `[] ≤ C` for every chain `C`, and accepts a non-empty
`C ≤ []` only if `C` is provably `my`, i.e. provably move (`Unique`) and
provably owned. -/
theorem empty_chain_bottom (env : Env) (C : List RedLink) :
    sub_chains env [] C = .ok true ∧
    (C ≠ [] → sub_chains env C [] = .ok true →
      RedLink.are_move env C = .ok true ∧ RedLink.are_owned env C = .ok true) := by
  refine ⟨by simp [sub_chains], ?_⟩
  intro hne hsub
  match C, hne with
  | l :: ls, _ =>
    rw [show sub_chains env (l :: ls) [] = term_is_provably_my env (l :: ls) from by
      simp [sub_chains]] at hsub
    exact (term_is_provably_my_eq_ok_true env (l :: ls)).mp hsub

/-- Witness for C3 at a concrete input: `[] ≤ [Var(0)]` is accepted, and
`[Var(0)] ≤ []` is accepted in an environment declaring `Var(0)` to be
everything, whence `[Var(0)]` is provably move and provably owned. -/
theorem empty_chain_bottom_witness :
    sub_chains envAll [] [RedLink.var 0] = .ok true ∧
    RedLink.are_move envAll [RedLink.var 0] = .ok true ∧
    RedLink.are_owned envAll [RedLink.var 0] = .ok true := by
  have h := empty_chain_bottom envAll [RedLink.var 0]
  have hsub : sub_chains envAll [RedLink.var 0] [] = .ok true := by
    simp [sub_chains, term_is_provably_my, RedLink.are_move, RedLink.are_owned,
      RedLink.is_move, RedLink.is_owned, envAll, Env.var_is_declared_to_be,
      Bind.bind, Except.bind]
  exact ⟨h.1, (h.2 (by simp) hsub).1, (h.2 (by simp) hsub).2⟩

/-- C4 (failing input): evaluating `RedChain::is_provably` at the chain
`[Our]` (which has no variable links, so any declaration hypothesis is
vacuous) yields `Ok(true)` for *both* `Owned` and `Lent`: the `are_lent`
loop of `red.rs` lines 144-151 returns `Ok(true)` as soon as it meets a
link that is not lent, so the owned chain `[Our]` counts as provably lent,
contradicting the claimed Owned/Lent exclusivity. -/
theorem our_chain_provably_owned_and_lent (env : Env) :
    RedChain.is_provably env [RedLink.our] .owned = .ok true ∧
    RedChain.is_provably env [RedLink.our] .lent = .ok true := by
  constructor <;>
    simp [RedChain.is_provably, RedLink.are_owned, RedLink.are_lent,
      RedLink.is_owned, RedLink.is_lent, Bind.bind, Except.bind]

/-- C5: `require_infer_is` returns `Ok` without changing state when the
predicate is already recorded as provably held; in a consistent state it
returns `Err` exactly when the variable was previously required *not* to
provably be the predicate; and absent any prior requirement either way it
records the obligation and succeeds.  Symmetrically for
`require_infer_isnt`. -/
theorem require_infer_spec (d : InferenceVarData) (P : Predicate) (oe : ArcOrElse)
    (hcons : ¬((d.is_known_to_provably_be P).isSome ∧
      (d.is_known_not_to_provably_be P).isSome)) :
    ((d.is_known_to_provably_be P).isSome → require_infer_is d P oe = (.ok (), d)) ∧
    ((∃ r, (require_infer_is d P oe).1 = .error r) ↔
      (d.is_known_not_to_provably_be P).isSome) ∧
    ((d.is_known_to_provably_be P) = none → (d.is_known_not_to_provably_be P) = none →
      require_infer_is d P oe = (.ok (), d.record_is P oe)) ∧
    ((d.is_known_not_to_provably_be P).isSome → require_infer_isnt d P oe = (.ok (), d)) ∧
    ((∃ r, (require_infer_isnt d P oe).1 = .error r) ↔
      (d.is_known_to_provably_be P).isSome) ∧
    ((d.is_known_to_provably_be P) = none → (d.is_known_not_to_provably_be P) = none →
      require_infer_isnt d P oe = (.ok (), d.record_isnt P oe)) := by
  cases his : d.is_known_to_provably_be P <;>
    cases hisnt : d.is_known_not_to_provably_be P <;>
      simp [his, hisnt] at hcons ⊢ <;>
        simp [require_infer_is, require_infer_isnt, his, hisnt]

/-- Witness for C5 at a concrete input: starting from the empty inference
state, requiring `Shared` records the obligation and succeeds, and
afterwards requiring *not* `Shared` errors. -/
theorem require_infer_spec_witness :
    (require_infer_is ⟨fun _ => none, fun _ => none⟩ .shared 3).1 = .ok () ∧
    ((require_infer_is ⟨fun _ => none, fun _ => none⟩ .shared 3).2.is_known_to_provably_be
      .shared).isSome := by
  have h := require_infer_spec ⟨fun _ => none, fun _ => none⟩ .shared 3
    (by simp [InferenceVarData.is_known_to_provably_be,
      InferenceVarData.is_known_not_to_provably_be])
  have h3 := (h.2.2.1) (by simp [InferenceVarData.is_known_to_provably_be])
    (by simp [InferenceVarData.is_known_not_to_provably_be])
  rw [h3]
  simp [InferenceVarData.record_is, InferenceVarData.is_known_to_provably_be]

/-- C6 (failing input): on `char`/`bool` operands the `LessEqual` operator
selects `I32GeU` (`generate_expr.rs` lines 263-264), not the `I32LeU` the
claim states; the other comparisons pick the matching unsigned
instruction. -/
theorem less_equal_char_bool_emits_i32geu :
    execute_binary_op_on_primitives .lessEqual .char = some .i32GeU ∧
    execute_binary_op_on_primitives .lessEqual .bool = some .i32GeU ∧
    execute_binary_op_on_primitives .lessEqual .char ≠ some .i32LeU ∧
    execute_binary_op_on_primitives .greaterEqual .char = some .i32GeU ∧
    execute_binary_op_on_primitives .lessThan .char = some .i32LtU ∧
    execute_binary_op_on_primitives .greaterThan .char = some .i32GtU := by
  refine ⟨rfl, rfl, ?_, rfl, rfl, rfl⟩
  simp [execute_binary_op_on_primitives]

/-- C7 (failing input): a float literal of a 64-bit float type makes
`push_literal` fall through both `bits <= 32` arms to the final `panic!`
arm (modelled as `none`) instead of pushing `F64Const`; a 32-bit float
does push `F32Const`. -/
theorem float64_literal_panics (payload : Nat) :
    push_literal_kind (.float 64) (.float payload) = none ∧
    push_literal_kind (.float 32) (.float payload) = some (.f32Const payload) := by
  constructor <;> rfl

/-- C8 (counterexample): for the concrete expression
`Semi(true, false)` at type `bool`, the emitted sequence is the two
constants with *no* intervening instruction, while the claim predicts one
`Drop` per flattened value of the first operand's type (here one); the two
sequences differ, so the claimed stack-rebalancing drop is not emitted. -/
theorem semi_no_drop_counterexample :
    push_expr (.semi (.primitive .bool)
        (.primitive (.primitive .bool) (.integral 1))
        (.primitive (.primitive .bool) (.integral 0)))
      = some [.i32Const 1, .i32Const 0] ∧
    push_semi_claimed (.primitive (.primitive .bool) (.integral 1))
        (.primitive (.primitive .bool) (.integral 0))
      = some [.i32Const 1, .drop, .i32Const 0] ∧
    push_expr (.semi (.primitive .bool)
        (.primitive (.primitive .bool) (.integral 1))
        (.primitive (.primitive .bool) (.integral 0)))
      ≠ push_semi_claimed (.primitive (.primitive .bool) (.integral 1))
        (.primitive (.primitive .bool) (.integral 0)) := by
  refine ⟨rfl, ?_, ?_⟩ <;>
    simp [push_semi_claimed, push_expr, pop_and_drop, push_literal_kind,
      ObjectExpr.ty, ObjectTy.kind, wasm_repr_of_type, wasm_valtype_for_primitive_kind,
      WasmRepr.flatten, Bind.bind, Option.bind]

/-- C8 (amended): the instructions emitted for `Semi(a, b)` are exactly
the instructions for `a` followed directly by those for `b`:
`pop_and_drop` emits no instructions at all, so `a`'s flattened stack
residue is left on the WASM stack rather than dropped. -/
theorem semi_emits_no_drop (ty : ObjectTy) (a b : ObjectExpr) :
    pop_and_drop a.ty = [] ∧
    push_expr (.semi ty a b) = (do
      let ia ← push_expr a
      let ib ← push_expr b
      pure (ia ++ ib)) := by
  refine ⟨rfl, ?_⟩
  simp [push_expr, pop_and_drop]

/-- C9 (counterexample): a run in which checking reports one diagnostic
but the source file loads successfully still produces exit status `0`:
`run_command` renders the diagnostics and returns `Ok(())`
regardless. -/
theorem run_command_exit_zero_despite_diagnostics :
    ((fun _ => [(7 : Diagnostic)]) (0 : SourceFile)).length = 1 ∧
    exit_status
      (run_command (.ok (0 : SourceFile)) (fun _ => []) (fun _ => [(7 : Diagnostic)]))
      = 0 := by
  exact ⟨rfl, rfl⟩

/-- C9 (amended): the exit status of `run <file>` does not depend on the
reported diagnostics at all; it is `0` exactly when the source file loads
(and nonzero only when loading fails). -/
theorem run_command_exit_ignores_diagnostics (load : Except Reported SourceFile)
    (cg cg2 : SourceFile → List Nat) (ca ca2 : SourceFile → List Diagnostic) :
    run_command load cg ca = run_command load cg2 ca2 ∧
    (exit_status (run_command load cg ca) = 0 ↔ ∃ sf, load = .ok sf) := by
  cases load <;> simp [run_command, exit_status, Bind.bind, Except.bind]

/-- The claim's characterization of a copy link: `Our`, `Ref`, or a
variable declared to be copy (shared); `Mut` and `Err` are not. -/
def is_copy_link (env : Env) (l : RedLink) : Bool :=
  match l with
  | .our | .ref _ _ => true
  | .var v => env.var_is_declared_to_be v .shared
  | .mut _ _ => false
  | .err _ => false

/-- On error-free chains, the `ChainExt::is_copy` scan computes exactly
"some link is a copy link". -/
theorem chain_is_copy_eq_any (env : Env) (R : List RedLink)
    (hR : ∀ r, RedLink.err r ∉ R) :
    ChainExt.is_copy env R = .ok (R.any (is_copy_link env)) := by
  induction R with
  | nil => rfl
  | cons l ls ih =>
    have hls : ∀ r, RedLink.err r ∉ ls := fun r h => hR r (List.mem_cons_of_mem l h)
    rcases l with _ | ⟨live, place⟩ | ⟨live, place⟩ | v | r
    · simp [ChainExt.is_copy, RedLink.is_copy, is_copy_link, Bind.bind, Except.bind]
    · simp [ChainExt.is_copy, RedLink.is_copy, is_copy_link, Bind.bind, Except.bind]
    · simp [ChainExt.is_copy, RedLink.is_copy, is_copy_link, Bind.bind, Except.bind,
        ih hls]
    · cases hv : env.var_is_declared_to_be v .shared <;>
        simp [ChainExt.is_copy, RedLink.is_copy, is_copy_link, Bind.bind, Except.bind,
          hv, ih hls]
    · exact absurd (List.mem_cons_self _ _) (hR r)

/-- C10: on error-free chains, `ChainExt::concat` absorbs into copy
right-operands: the result is `R` alone whenever `R` contains a copy link
(`Our`, `Ref`, or a variable declared copy), and the concatenation
`L ++ R` otherwise; in particular composing any permission onto `our`
leaves `[Our]` unchanged. -/
theorem concat_absorbs_copy (env : Env) (L R : List RedLink)
    (hR : ∀ r, RedLink.err r ∉ R) :
    ChainExt.concat env L R
      = .ok (if R.any (is_copy_link env) then R else L ++ R) := by
  rw [ChainExt.concat, chain_is_copy_eq_any env R hR]
  cases R.any (is_copy_link env) <;> simp [Bind.bind, Except.bind]

/-- Witness for C10 at a concrete input: concatenating a `mut` chain onto
`[Our]` yields `[Our]` unchanged. -/
theorem concat_absorbs_copy_witness :
    ChainExt.concat envAll [RedLink.mut false ⟨0, []⟩] [RedLink.our]
      = .ok [RedLink.our] := by
  have h := concat_absorbs_copy envAll [RedLink.mut false ⟨0, []⟩] [RedLink.our]
    (by simp)
  simpa [is_copy_link] using h
